import Mathlib

/-!
Verification of the Secret Santa sample notebook
(`samples/secret-santa/secret-santa.ipynb`).

The notebook builds a PUBO objective out of `Term` objects: each `Term`
carries a real coefficient `c` (all coefficients in the sample are the
float literals `1.0`, `2.0`, `-2.0`, which are exact integers, so the
embedding uses `Int`) and a list of variable indices (Python `int`,
embedded as `Int`).  `build_terms i j` emits the six monomials of the
expansion of `(x_i + x_j - 1)^2`; the notebook concatenates six such
calls into the problem's term list; `print_results` walks the solver's
configuration dictionary in iteration order and prints a hard-coded
sentence for every variable whose value is `1`, indexing into a
six-entry table (a missing key raises `KeyError`).
-/

/-- A monomial term of the objective: coefficient and variable indices,
mirroring `azure.quantum.optimization.Term(c = ..., indices = [...])`. -/
structure Term where
  c : Int
  indices : List Int
deriving DecidableEq, Repr

/-- `build_terms(i, j)` from the notebook: the six Terms of the quadratic
expansion of `(x_i + x_j - 1)^2`, appended in source order. -/
def build_terms (i j : Int) : List Term :=
  [ ⟨1, [i, i]⟩,     -- x(i)^2
    ⟨1, [j, j]⟩,     -- x(j)^2
    ⟨2, [i, j]⟩,     -- 2x(i)x(j)
    ⟨-2, [i]⟩,       -- -2x(i)
    ⟨-2, [j]⟩,       -- -2x(j)
    ⟨1, []⟩ ]        -- +1

/-- Value contributed by one Term under an assignment `x` of the
variables: the coefficient times the product of the indexed variables
(an empty index list contributes the coefficient as a constant). -/
def Term.eval (x : Int → Int) (t : Term) : Int :=
  t.c * (t.indices.map x).prod

/-- Value of a term list under an assignment: the sum of its terms. -/
def evalTerms (ts : List Term) (x : Int → Int) : Int :=
  (ts.map (Term.eval x)).sum

/-- The assembled problem terms of the notebook:
`terms = build_terms(0,1) + build_terms(2,3) + build_terms(4,5)` then
`terms = terms + build_terms(2,4) + build_terms(0,5) + build_terms(1,3)`. -/
def terms : List Term :=
  (build_terms 0 1 ++ build_terms 2 3 ++ build_terms 4 5) ++
    build_terms 2 4 ++ build_terms 0 5 ++ build_terms 1 3

/-- The hard-coded index-to-sentence dictionary `result` inside
`print_results`, as an association list in insertion order. -/
def result : List (String × String) :=
  [ ("0", "Vincent buys Tess a gift and writes her a poem."),
    ("1", "Vincent buys Uma a gift and writes her a poem."),
    ("2", "Tess buys Vincent a gift and writes him a poem."),
    ("3", "Tess buys Uma a gift and writes her a poem."),
    ("4", "Uma buys Vincent a gift and writes him a poem."),
    ("5", "Uma buys Tess a gift and writes her a poem.") ]

/-- `print_results(config)` from the notebook.  The configuration is the
solver's dictionary, embedded as an association list in iteration order.
The function returns the list of lines printed and an error flag:
`true` means the loop raised `KeyError` (`result[key]` with a key absent
from the table) at that point, with the already-printed lines kept in
the first component. -/
def print_results : List (String × Int) → List String × Bool
  | [] => ([], false)
  | (key, val) :: rest =>
    if val = 1 then
      match List.lookup key result with
      | none => ([], true)
      | some s =>
        let r := print_results rest
        (s :: r.1, r.2)
    else print_results rest

/-- The six exclusive-or constraint pairs of the Secret Santa matrix,
in the order the notebook assembles them (three rows, three columns). -/
def pairs : List (Int × Int) :=
  [(0, 1), (2, 3), (4, 5), (2, 4), (0, 5), (1, 3)]

/-- A binary assignment of the six variables read off the bits of `m`:
variable `k` receives bit `k` of `m`. -/
def xOf (m : Nat) : Int → Int :=
  fun k => ((m / 2 ^ k.toNat) % 2 : Nat)

/-- An assignment is feasible when every constraint pair has exactly one
of its two binary variables set to 1, i.e. their sum is 1. -/
def feasibleB (x : Int → Int) : Bool :=
  pairs.all (fun p => x p.1 + x p.2 == 1)

/-- The expected printed line for a configuration entry: the table
sentence when the value is 1 and the key is in the table, nothing
otherwise. -/
def lineOf (p : String × Int) : Option String :=
  if p.2 = 1 then List.lookup p.1 result else none

/-- An entry the `print_results` loop passes without raising: either its
value is not 1, or its key is in the table. -/
def goodEntry (p : String × Int) : Bool :=
  !(p.2 == 1 && (List.lookup p.1 result).isNone)

/-- Exactly one of two configuration values is 1. -/
def exactlyOne (a b : Int) : Prop :=
  (a = 1 ∧ b ≠ 1) ∨ (a ≠ 1 ∧ b = 1)

instance (a b : Int) : Decidable (exactlyOne a b) := by
  unfold exactlyOne
  infer_instance

/-- An assignment giving variable i the value a, variable j the value b,
and every other variable 0. -/
def assign2 (i j a b : Int) : Int → Int :=
  fun k => if k = i then a else if k = j then b else 0

/-- The output stream of the interpreter: the lines printed so far. -/
structure World where
  out : List String
deriving DecidableEq, Repr

/-- `print_results` as a transformer of the output stream: it appends
each printed line to the stream and reports the `KeyError` flag.  The
configuration is only read, never written. -/
def print_results_io : List (String × Int) → World → World × Bool
  | [], w => (w, false)
  | (key, val) :: rest, w =>
    if val = 1 then
      match List.lookup key result with
      | none => (w, true)
      | some s => print_results_io rest ⟨w.out ++ [s]⟩
    else print_results_io rest w

/-- The polynomial built by `build_terms i j` evaluates, under any
assignment, to the quadratic `x i ^2 + x j ^2 + 2 x i x j - 2 x i - 2 x j + 1`. -/
theorem evalTerms_build_terms (i j : Int) (x : Int → Int) :
    evalTerms (build_terms i j) x =
      x i * x i + x j * x j + 2 * (x i * x j) - 2 * x i - 2 * x j + 1 := by
  simp [evalTerms, build_terms, Term.eval]
  ring

/-- Claim C1: for all integers i ≠ j, `build_terms i j` returns exactly 6
Terms whose coefficients are 1, 1, 2, -2, -2, 1 on the index patterns
(i,i), (j,j), (i,j), (i), (j), () respectively — the monomials of the
expansion of (x_i + x_j - 1)^2. -/
theorem build_terms_shape (i j : Int) (h : i ≠ j) :
    (build_terms i j).length = 6 ∧
    (build_terms i j).map Term.c = [1, 1, 2, -2, -2, 1] ∧
    (build_terms i j).map Term.indices = [[i, i], [j, j], [i, j], [i], [j], []] :=
  ⟨rfl, rfl, rfl⟩

/-- Witness for C1 at (i, j) = (0, 1). -/
theorem build_terms_shape_witness :
    (0 : Int) ≠ 1 ∧
      ((build_terms 0 1).length = 6 ∧
       (build_terms 0 1).map Term.c = [1, 1, 2, -2, -2, 1] ∧
       (build_terms 0 1).map Term.indices = [[0, 0], [1, 1], [0, 1], [0], [1], []]) :=
  ⟨by decide, build_terms_shape 0 1 (by decide)⟩

/-- Claim C2: for all integers i ≠ j, the polynomial of `build_terms i j`
evaluated at the four binary assignments (x_i, x_j) = (0,0), (0,1),
(1,0), (1,1) yields the XOR-penalty costs 1, 0, 0, 1 respectively. -/
theorem build_terms_xor_truth_table (i j : Int) (h : i ≠ j) :
    evalTerms (build_terms i j) (assign2 i j 0 0) = 1 ∧
    evalTerms (build_terms i j) (assign2 i j 0 1) = 0 ∧
    evalTerms (build_terms i j) (assign2 i j 1 0) = 0 ∧
    evalTerms (build_terms i j) (assign2 i j 1 1) = 1 := by
  have hji : j ≠ i := Ne.symm h
  refine ⟨?_, ?_, ?_, ?_⟩ <;> simp [evalTerms_build_terms, assign2, hji]

/-- Witness for C2 at (i, j) = (0, 1). -/
theorem build_terms_xor_truth_table_witness :
    (0 : Int) ≠ 1 ∧
      (evalTerms (build_terms 0 1) (assign2 0 1 0 0) = 1 ∧
       evalTerms (build_terms 0 1) (assign2 0 1 0 1) = 0 ∧
       evalTerms (build_terms 0 1) (assign2 0 1 1 0) = 0 ∧
       evalTerms (build_terms 0 1) (assign2 0 1 1 1) = 1) :=
  ⟨by decide, build_terms_xor_truth_table 0 1 (by decide)⟩

/-- Claim C8: `build_terms` is total over all integer inputs — negative,
out-of-range, or equal indices included — and always returns a
6-element list (index validity is not checked). -/
theorem build_terms_total (i j : Int) : (build_terms i j).length = 6 := rfl

/-- Claim C9: the polynomial of `build_terms i j` equals, as a function
of the variables, the polynomial of `build_terms j i`: term order is
semantically irrelevant and the builder is symmetric up to it. -/
theorem build_terms_symm (i j : Int) (x : Int → Int) :
    evalTerms (build_terms i j) x = evalTerms (build_terms j i) x := by
  simp only [evalTerms_build_terms]
  ring

/-- Claim C4: the assembled problem term list has exactly 36 Terms, and
every variable index any of them references lies in [0, 6). -/
theorem terms_count_and_index_bounds :
    terms.length = 36 ∧ ∀ t ∈ terms, ∀ k ∈ t.indices, 0 ≤ k ∧ k < 6 := by
  decide

/-- Claim C3: over all 64 binary assignments of the six variables, the
assembled objective evaluates to 0 exactly on the feasible assignments
(every constraint pair has exactly one variable set) and is strictly
positive on every other assignment. -/
theorem terms_zero_iff_feasible (m : Nat) (h : m < 64) :
    (feasibleB (xOf m) = true → evalTerms terms (xOf m) = 0) ∧
    (feasibleB (xOf m) = false → 0 < evalTerms terms (xOf m)) := by
  revert m h
  decide

/-- Witness for C3 at the feasible assignment m = 25
(x = (1,0,0,1,1,0)). -/
theorem terms_zero_iff_feasible_witness :
    25 < 64 ∧
      ((feasibleB (xOf 25) = true → evalTerms terms (xOf 25) = 0) ∧
       (feasibleB (xOf 25) = false → 0 < evalTerms terms (xOf 25))) :=
  ⟨by decide, terms_zero_iff_feasible 25 (by decide)⟩

/-- Every key of the six-row table is found by lookup. -/
theorem lookup_result_isSome (k : String)
    (h : k ∈ (["0", "1", "2", "3", "4", "5"] : List String)) :
    (List.lookup k result).isSome := by
  fin_cases h <;> rfl

/-- Lookup in the table fails exactly on keys outside the six strings. -/
theorem lookup_result_none_iff (k : String) :
    List.lookup k result = none ↔
      k ∉ (["0", "1", "2", "3", "4", "5"] : List String) := by
  constructor
  · intro h hmem
    have := lookup_result_isSome k hmem
    simp [h] at this
  · intro h
    simp only [List.mem_cons, List.not_mem_nil, not_or] at h
    obtain ⟨h0, h1, h2, h3, h4, h5, -⟩ := h
    have b0 : (k == "0") = false := beq_eq_false_iff_ne.mpr h0
    have b1 : (k == "1") = false := beq_eq_false_iff_ne.mpr h1
    have b2 : (k == "2") = false := beq_eq_false_iff_ne.mpr h2
    have b3 : (k == "3") = false := beq_eq_false_iff_ne.mpr h3
    have b4 : (k == "4") = false := beq_eq_false_iff_ne.mpr h4
    have b5 : (k == "5") = false := beq_eq_false_iff_ne.mpr h5
    simp [result, List.lookup, b0, b1, b2, b3, b4, b5]

/-- Claim C5: on a configuration whose keys all lie among the six table
keys, `print_results` prints exactly the table label of each entry whose
value is 1, in iteration order, raises no error, and performs no
feasibility validation — an infeasible configuration silently yields
zero or several lines. -/
theorem print_results_no_validation (config : List (String × Int))
    (h : ∀ p ∈ config, p.1 ∈ (["0", "1", "2", "3", "4", "5"] : List String)) :
    print_results config = (config.filterMap lineOf, false) := by
  induction config with
  | nil => rfl
  | cons p rest ih =>
    obtain ⟨key, val⟩ := p
    have hk := h (key, val) (List.mem_cons_self _ _)
    have hrest := fun q hq => h q (List.mem_cons_of_mem _ hq)
    by_cases hv : val = 1
    · obtain ⟨s, hs⟩ := Option.isSome_iff_exists.mp (lookup_result_isSome key hk)
      simp [print_results, hv, hs, List.filterMap_cons, lineOf, ih hrest]
    · simp [print_results, hv, List.filterMap_cons, lineOf, ih hrest]

/-- Witness for C5 at the infeasible configuration
[("0",1), ("1",1), ("2",0)]: two lines, no error, no warning. -/
theorem print_results_no_validation_witness :
    (∀ p ∈ ([("0", 1), ("1", 1), ("2", 0)] : List (String × Int)),
        p.1 ∈ (["0", "1", "2", "3", "4", "5"] : List String)) ∧
      print_results [("0", 1), ("1", 1), ("2", 0)] =
        (([("0", 1), ("1", 1), ("2", 0)] : List (String × Int)).filterMap lineOf,
          false) :=
  ⟨by decide, print_results_no_validation [("0", 1), ("1", 1), ("2", 0)] (by decide)⟩

/-- Claim C6: on a configuration with keys "0" … "5" in which exactly
one variable of each logical row pair (x0,x1), (x2,x3), (x4,x5) has
value 1, `print_results` prints exactly 3 lines — one per person. -/
theorem print_results_three_lines (v0 v1 v2 v3 v4 v5 : Int)
    (h01 : exactlyOne v0 v1) (h23 : exactlyOne v2 v3) (h45 : exactlyOne v4 v5) :
    (print_results
        [("0", v0), ("1", v1), ("2", v2), ("3", v3), ("4", v4), ("5", v5)]).1.length
      = 3 := by
  rcases h01 with ⟨e0, n1⟩ | ⟨n0, e1⟩ <;>
    rcases h23 with ⟨e2, n3⟩ | ⟨n2, e3⟩ <;>
      rcases h45 with ⟨e4, n5⟩ | ⟨n4, e5⟩ <;>
        simp [print_results, result, List.lookup, *]

/-- Witness for C6 at the feasible configuration (1,0,0,1,1,0). -/
theorem print_results_three_lines_witness :
    (exactlyOne 1 0 ∧ exactlyOne 0 1 ∧ exactlyOne 1 0) ∧
      (print_results
          [("0", 1), ("1", 0), ("2", 0), ("3", 1), ("4", 1), ("5", 0)]).1.length
        = 3 :=
  ⟨⟨by decide, by decide, by decide⟩,
    print_results_three_lines 1 0 0 1 1 0 (by decide) (by decide) (by decide)⟩

/-- Running `print_results_io` appends exactly the lines of
`print_results` to the output stream and reports the same error flag. -/
theorem print_results_io_spec (config : List (String × Int)) (w : World) :
    print_results_io config w =
      (⟨w.out ++ (print_results config).1⟩, (print_results config).2) := by
  induction config generalizing w with
  | nil => simp [print_results_io, print_results]
  | cons p rest ih =>
    obtain ⟨key, val⟩ := p
    by_cases hv : val = 1
    · cases hl : List.lookup key result with
      | none => simp [print_results_io, print_results, hv, hl]
      | some s => simp [print_results_io, print_results, hv, hl, ih]
    · simp [print_results_io, print_results, hv, ih]

/-- Claim C7: `print_results` is deterministic and stateless — running
it a second time on the same configuration, over the output stream the
first run left behind, prints a byte-identical sequence of lines and
reports the same error flag; the configuration, being only read, is
passed unchanged between the runs. -/
theorem print_results_deterministic (config : List (String × Int)) (w : World) :
    ((print_results_io config (print_results_io config w).1).1.out.drop
        (print_results_io config w).1.out.length =
      (print_results_io config w).1.out.drop w.out.length) ∧
    (print_results_io config (print_results_io config w).1).2 =
      (print_results_io config w).2 := by
  simp [print_results_io_spec, List.drop_left]

/-- Claim C10: `print_results` raises a key-lookup error exactly when
some entry has value 1 and a key outside the six table keys; entries
with other values are skipped whether or not their key is in the table;
entries are processed in iteration order, so the labels of in-table
value-1 entries before the first failing entry are printed before the
failure. -/
theorem print_results_key_error (config : List (String × Int)) :
    ((print_results config).2 = true ↔
      ∃ p ∈ config, p.2 = 1 ∧ p.1 ∉ (["0", "1", "2", "3", "4", "5"] : List String)) ∧
    (print_results config).1 = (config.takeWhile goodEntry).filterMap lineOf := by
  induction config with
  | nil => simp [print_results]
  | cons p rest ih =>
    obtain ⟨key, val⟩ := p
    by_cases hv : val = 1
    · have hb : (val == 1) = true := beq_iff_eq.mpr hv
      cases hl : List.lookup key result with
      | none =>
        have hmem : key ∉ (["0", "1", "2", "3", "4", "5"] : List String) :=
          (lookup_result_none_iff key).mp hl
        have hpr : print_results ((key, val) :: rest) = ([], true) := by
          simp [print_results, hv, hl]
        have hg : goodEntry (key, val) = false := by
          simp [goodEntry, hb, hl]
        rw [hpr]
        refine ⟨⟨fun _ => ⟨(key, val), List.mem_cons_self _ _, hv, hmem⟩,
          fun _ => rfl⟩, ?_⟩
        simp [List.takeWhile_cons, hg]
      | some s =>
        have hmem : key ∈ (["0", "1", "2", "3", "4", "5"] : List String) := by
          by_contra hc
          rw [← lookup_result_none_iff] at hc
          simp [hc] at hl
        have hg : goodEntry (key, val) = true := by
          simp [goodEntry, hl]
        have hpr : print_results ((key, val) :: rest) =
            (s :: (print_results rest).1, (print_results rest).2) := by
          simp [print_results, hv, hl]
        have hline : lineOf (key, val) = some s := by
          simp [lineOf, hv, hl]
        rw [hpr]
        refine ⟨?_, ?_⟩
        · rw [ih.1]
          constructor
          · rintro ⟨q, hq, h1, h2⟩
            exact ⟨q, List.mem_cons_of_mem _ hq, h1, h2⟩
          · rintro ⟨q, hq, h1, h2⟩
            rcases List.mem_cons.mp hq with rfl | hq'
            · exact absurd hmem h2
            · exact ⟨q, hq', h1, h2⟩
        · simp [List.takeWhile_cons, hg, List.filterMap_cons, hline, ih.2]
    · have hb : (val == 1) = false := beq_eq_false_iff_ne.mpr hv
      have hg : goodEntry (key, val) = true := by
        simp [goodEntry, hb]
      have hpr : print_results ((key, val) :: rest) = print_results rest := by
        simp [print_results, hv]
      have hline : lineOf (key, val) = none := by
        simp [lineOf, hv]
      rw [hpr]
      refine ⟨?_, ?_⟩
      · rw [ih.1]
        constructor
        · rintro ⟨q, hq, h1, h2⟩
          exact ⟨q, List.mem_cons_of_mem _ hq, h1, h2⟩
        · rintro ⟨q, hq, h1, h2⟩
          rcases List.mem_cons.mp hq with rfl | hq'
          · exact absurd h1 hv
          · exact ⟨q, hq', h1, h2⟩
      · simp [List.takeWhile_cons, hg, List.filterMap_cons, hline, ih.2]
